import Mathlib

/-
  Verification development for the word_to_excel converter
  (src/bot_st1.0.1.py, src/bot_st1.0.2.py).

  The Python code is shallowly embedded over `List Char`:
  lines (paragraph texts) are lists of characters, question records are a
  structure with the four dictionary keys used by the code, and the three
  regular expressions of the segmenter are compiled by hand into total
  character-list functions.  Python's `\d` and `\s` are modelled by their
  ASCII meaning (the documents the tool is written for use ASCII digits,
  ASCII option letters and CJK text, for which the two coincide).
  A Python runtime error (KeyError / ValueError / IndexError) is modelled
  by `Option`: `none` is a raised exception escaping the function.
-/

namespace WordToExcel

/-- ASCII whitespace as matched by `str.strip()` and the regex class `\s`. -/
def pySpace (c : Char) : Bool :=
  c = ' ' || c = '\t' || c = '\n' || c = '\r' || c = '\x0b' || c = '\x0c'

/-- Remove the characters satisfying `p` from both ends of a list
(Python `str.strip(chars)`). -/
def stripChars (p : Char → Bool) (s : List Char) : List Char :=
  ((s.dropWhile p).reverse.dropWhile p).reverse

/-- Python `str.strip()` on an embedded line. -/
def pyStrip (s : List Char) : List Char := stripChars pySpace s

/-- Python `str.strip('#')`: remove `#` from both ends. -/
def stripHash (s : List Char) : List Char := stripChars (fun c => c = '#') s

/-- `text.startswith('##')`. -/
def startsHashHash (s : List Char) : Bool :=
  match s with
  | a :: b :: _ => a = '#' && b = '#'
  | _ => false

/-- `text.endswith('##')`: the reversed text starts with two `#`. -/
def endsHashHash (s : List Char) : Bool := startsHashHash s.reverse

/-- The letters accepted by the option-line pattern `^[A-D]\.?\s`. -/
def isOptionLetter (c : Char) : Bool :=
  c = 'A' || c = 'B' || c = 'C' || c = 'D'

/-- Shared tail of the two anchored patterns `^[#]?\d+\.?\s` and
`^[A-D]\.?\s`: after the mandatory head, an optional dot followed by one
whitespace character.  Returns the remainder after the match (what
`re.sub(pattern, '', text)` leaves), or `none` when the pattern fails.
When a dot is present the following character must be whitespace, since on
backtracking `\s` would have to match the dot itself, which is impossible. -/
def dotSpaceTail (t : List Char) : Option (List Char) :=
  match t with
  | '.' :: w :: r => if pySpace w then some r else none
  | w :: r => if pySpace w then some r else none
  | [] => none

/-- `re.match(r'^[#]?\d+\.?\s', text)` together with the corresponding
`re.sub` on success: an optional `#`, a maximal nonempty run of digits, an
optional dot, one whitespace character; returns the remainder after the
matched prefix.  `\d+` must take the maximal run: stopping early leaves a
digit where `\.?\s` can never match. -/
def matchQuestionStart (s : List Char) : Option (List Char) :=
  let t := match s with
    | '#' :: rest => rest
    | _ => s
  match t with
  | [] => none
  | c :: _ =>
    if c.isDigit then dotSpaceTail (t.dropWhile Char.isDigit) else none

/-- `re.match(r'^[A-D]\.?\s', text)` together with the corresponding
`re.sub` on success. -/
def matchOption (s : List Char) : Option (List Char) :=
  match s with
  | [] => none
  | c :: rest => if isOptionLetter c then dotSpaceTail rest else none

/-- Characters of `rest` strictly before its first `}`, or `none` if no `}`
occurs before the end or before a newline (regex `.` never matches `\n`). -/
def scanClose : List Char → Option (List Char)
  | [] => none
  | c :: rest =>
    if c = '}' then some []
    else if c = '\n' then none
    else (scanClose rest).map (fun pre => c :: pre)

/-- Given the characters after an opening `{`, the shortest nonempty inner
text of `\{(.+?)\}` at this position: the first character (which `.` may
consume even if it is `}`) followed by everything up to the next `}`. -/
def braceInner (rest : List Char) : Option (List Char) :=
  match rest with
  | [] => none
  | c :: rest' =>
    if c = '\n' then none
    else (scanClose rest').map (fun pre => c :: pre)

/-- `re.search(r'\{(.+?)\}', s)`: the group of the leftmost-shortest match.
Scanning advances one character at a time; a match can only start at `{`. -/
def findBrace : List Char → Option (List Char)
  | [] => none
  | c :: rest =>
    if c = '{' then
      match braceInner rest with
      | some inner => some inner
      | none => findBrace rest
    else findBrace rest

/-- Fueled worker for `removeBraces`; the fuel only serves structural
recursion and is always sufficient (one unit per character consumed). -/
def removeBracesAux : Nat → List Char → List Char
  | 0, s => s
  | _ + 1, [] => []
  | fuel + 1, c :: rest =>
    if c = '{' then
      match braceInner rest with
      | some inner => removeBracesAux fuel (rest.drop (inner.length + 1))
      | none => c :: removeBracesAux fuel rest
    else c :: removeBracesAux fuel rest

/-- `re.sub(r'\{.+?\}', '', s)`: delete every non-overlapping
leftmost-shortest brace match, scanning left to right and resuming after
each deleted span. -/
def removeBraces (s : List Char) : List Char := removeBracesAux s.length s

/-- One question record: the dictionary
`{'type': …, 'question': …, 'options': […], 'answer': …}` built by the
segmenter. -/
structure Question where
  type : List Char
  question : List Char
  options : List (List Char)
  answer : List Char
deriving DecidableEq, Repr

/-- Build the fresh record that a question-start line opens:
ambient type, stem and answer extracted from the remainder `rem` of the
matched prefix (lines 46–60 of bot_st1.0.2.py). -/
def openQuestion (qtype rem : List Char) : Question :=
  let questionText := pyStrip rem
  match findBrace questionText with
  | some inner =>
    { type := qtype, question := pyStrip (removeBraces questionText),
      options := [], answer := inner }
  | none =>
    { type := qtype, question := questionText, options := [], answer := [] }

/-- The paragraph loop of `extract_questions_from_docx`:
`qs` is `questions`, `cur` is `current_question` (`none` for the initial
empty dict), `qtype` is `question_type`.  An option line with no open
question raises `KeyError` (`current_question['options']` on `{}`),
modelled by `none`. -/
def extractLoop (qs : List Question) (cur : Option Question)
    (qtype : List Char) : List (List Char) → Option (List Question)
  | [] =>
    match cur with
    | some q => some (qs ++ [q])
    | none => some qs
  | para :: rest =>
    let text := pyStrip para
    if text.isEmpty then
      extractLoop qs cur qtype rest
    else if startsHashHash text && endsHashHash text then
      extractLoop qs cur (pyStrip (stripHash text)) rest
    else
      match matchQuestionStart text with
      | some rem =>
        let qs' := match cur with
          | some q => qs ++ [q]
          | none => qs
        extractLoop qs' (some (openQuestion qtype rem)) qtype rest
      | none =>
        match matchOption text with
        | some rem =>
          match cur with
          | some q =>
            extractLoop qs
              (some { q with options := q.options ++ [pyStrip rem] }) qtype rest
          | none => none
        | none => extractLoop qs cur qtype rest

/-- `extract_questions_from_docx` of bot_st1.0.2.py, over the paragraph
texts of the document. -/
def extract_questions_from_docx (paras : List (List Char)) :
    Option (List Question) :=
  extractLoop [] none [] paras

/-- String literal to embedded line. -/
def chars (s : String) : List Char := s.data

/-- The option-letter alphabet `'ABCDEFGHIJK'` of
`determine_question_type`. -/
def validLetters : List Char := chars "ABCDEFGHIJK"

/-- The boolean-answer token list
`['正确', '错误', '对', '错', 'T', 'F']`. -/
def boolTokens : List (List Char) :=
  [chars "正确", chars "错误", chars "对", chars "错", chars "T", chars "F"]

/-- Python `str.upper()`, ASCII case mapping (the characters the heuristic
compares against are ASCII letters and CJK, on which this agrees with
Python). -/
def pyUpper (s : List Char) : List Char := s.map Char.toUpper

/-- `determine_question_type` of bot_st1.0.2.py: classify a record from the
shape of its (trimmed, uppercased) answer. -/
def determine_question_type (q : Question) : List Char :=
  let answer := pyUpper (pyStrip q.answer)
  if answer ∈ boolTokens then chars "判断题"
  else if decide (1 < answer.length) && answer.all (fun c => c ∈ validLetters) then
    chars "多选题"
  else if answer.length = 1 && answer.all (fun c => c ∈ validLetters) then
    chars "单选题"
  else chars "单选题"

/-- The per-record step of the processing loop in `write_to_excel`
(lines 127–130): infer the type only when it is empty. -/
def processQuestion (q : Question) : Question :=
  if q.type = [] then { q with type := determine_question_type q } else q

/-- The multiset of letters `chr(65 + i)` added to the set inside
`get_option_letters`: one letter per option position of each record. -/
def allLetters (questions : List Question) : List Char :=
  questions.flatMap (fun q =>
    (List.range q.options.length).map (fun i => Char.ofNat (65 + i)))

/-- `get_option_letters`: `sorted(list(set(...)))` — the distinct letters
in ascending order. -/
def get_option_letters (questions : List Question) : List Char :=
  ((allLetters questions).dedup).insertionSort (fun a b => a ≤ b)

/-- `get_headers` of bot_st1.0.2.py. -/
def get_headers (question_type : List Char) (option_letters : List Char) :
    List (List Char) :=
  let common_headers := [chars "题型", chars "题目"]
  if question_type = chars "单选题" ∨ question_type = chars "多选题" then
    common_headers ++ option_letters.map (fun c => [c]) ++ [chars "答案"]
  else if question_type = chars "判断题" then
    common_headers ++ [chars "正确", chars "错误", chars "答案"]
  else
    common_headers ++ [chars "答案"]

/-- The header row `write_to_excel` computes at line 133:
`get_headers(processed_questions[0]['type'], option_letters)`;
`none` models the `IndexError` on an empty list. -/
def schemaOf (questions : List Question) : Option (List (List Char)) :=
  match questions.map processQuestion with
  | [] => none
  | q0 :: _ => some (get_headers q0.type (get_option_letters questions))

/-- The option-cell loop of a choice row (lines 146–148): option `i` goes
to column `headers.index(chr(65 + i)) + 1`; a letter absent from the
headers raises `ValueError`, modelled by `none`. -/
def writeChoiceCells (headers : List (List Char)) :
    Nat → List (List Char) → Option (List (Nat × List Char))
  | _, [] => some []
  | i, opt :: rest =>
    match headers.findIdx? (fun h => h = [Char.ofNat (65 + i)]) with
    | some idx =>
      (writeChoiceCells headers (i + 1) rest).map
        (fun cells => (idx + 1, opt) :: cells)
    | none => none

/-- The cells written for one record (lines 139–159), as
(1-indexed column, value) pairs. -/
def writeRow (headers : List (List Char)) (q : Question) :
    Option (List (Nat × List Char)) :=
  let base := [(1, q.type), (2, q.question)]
  if q.type = chars "单选题" ∨ q.type = chars "多选题" then
    (writeChoiceCells headers 0 q.options).map
      (fun cells => base ++ cells ++ [(headers.length, q.answer)])
  else if q.type = chars "判断题" then
    some (base ++ [(3, chars "正确"), (4, chars "错误"), (5, q.answer)])
  else
    some (base ++ [(3, q.answer)])

/-- The grid handed to the spreadsheet writer: the header row and, per
record, its cell writes. -/
structure Grid where
  headers : List (List Char)
  rows : List (List (Nat × List Char))
deriving DecidableEq, Repr

/-- `write_to_excel` of bot_st1.0.2.py as a grid builder: `none` models an
uncaught exception (empty input, or `ValueError` from a choice row whose
letter has no column). -/
def write_to_excel (questions : List Question) : Option Grid :=
  (schemaOf questions).bind (fun headers =>
    ((questions.map processQuestion).mapM (writeRow headers)).map
      (fun rows => Grid.mk headers rows))

/-- What `main` of bot_st1.0.2.py does after extraction, as far as output
is concerned.  The source has `if questions:` offering the export UI and
preview, and no `else` branch at all; `reportNoQuestions` exists in this
vocabulary only to state that the code never produces it. -/
inductive CallerAction where
  | offerExport
  | reportNoQuestions
  | silent
deriving DecidableEq, Repr

/-- The caller-level branch on the extraction result
(bot_st1.0.2.py lines 233–283). -/
def mainAction (questions : List Question) : CallerAction :=
  if questions.isEmpty then CallerAction.silent else CallerAction.offerExport

/-- `extract_questions_from_docx` of bot_st1.0.1.py (lines 18–70), embedded
independently of the 1.0.2 variant; the paragraph loop is written out
again from that file. -/
def extractLoopV1 (qs : List Question) (cur : Option Question)
    (qtype : List Char) : List (List Char) → Option (List Question)
  | [] =>
    match cur with
    | some q => some (qs ++ [q])
    | none => some qs
  | para :: rest =>
    let text := pyStrip para
    if text.isEmpty then
      extractLoopV1 qs cur qtype rest
    else if startsHashHash text && endsHashHash text then
      extractLoopV1 qs cur (pyStrip (stripHash text)) rest
    else
      match matchQuestionStart text with
      | some rem =>
        let qs' := match cur with
          | some q => qs ++ [q]
          | none => qs
        extractLoopV1 qs' (some (openQuestion qtype rem)) qtype rest
      | none =>
        match matchOption text with
        | some rem =>
          match cur with
          | some q =>
            extractLoopV1 qs
              (some { q with options := q.options ++ [pyStrip rem] }) qtype rest
          | none => none
        | none => extractLoopV1 qs cur qtype rest

/-- `extract_questions_from_docx` of bot_st1.0.1.py. -/
def extract_questions_from_docx_v1 (paras : List (List Char)) :
    Option (List Question) :=
  extractLoopV1 [] none [] paras

/-- A paragraph on which the loop body changes nothing but possibly the
ambient type: blank once trimmed, a section marker, or a line matching
neither the question-start nor the option pattern. -/
def inertLine (para : List Char) : Bool :=
  let text := pyStrip para
  text.isEmpty || (startsHashHash text && endsHashHash text) ||
    ((matchQuestionStart text).isNone && (matchOption text).isNone)

/-- A paragraph the loop treats as an option line: nonblank, not a marker,
not a question start, and matching `^[A-D]\.?\s`. -/
def optionLine (para : List Char) : Bool :=
  let text := pyStrip para
  !text.isEmpty && !(startsHashHash text && endsHashHash text) &&
    (matchQuestionStart text).isNone && (matchOption text).isSome

end WordToExcel

namespace WordToExcel

/-! ### Helper lemmas -/

/-- A line starting with `##` never matches the question-start pattern:
after the optional `#`, the second `#` is not a digit. -/
theorem matchQuestionStart_of_startsHashHash {text : List Char}
    (h : startsHashHash text = true) : matchQuestionStart text = none := by
  cases text with
  | nil => simp [startsHashHash] at h
  | cons a t =>
    cases t with
    | nil => simp [startsHashHash] at h
    | cons b t' =>
      simp only [startsHashHash, Bool.and_eq_true, decide_eq_true_eq] at h
      obtain ⟨rfl, rfl⟩ := h
      rfl

/-- The paragraph loop on the empty input finalizes an open question. -/
theorem extractLoop_nil_some (qs : List Question) (q : Question)
    (qtype : List Char) : extractLoop qs (some q) qtype [] = some (qs ++ [q]) :=
  rfl

/-- With no open question, an inert prefix only re-threads the ambient
type. -/
theorem extractLoop_inert_append (rest : List (List Char)) :
    ∀ (pre : List (List Char)) (qs : List Question) (qtype : List Char),
      (∀ p ∈ pre, inertLine p = true) →
      ∃ qtype', extractLoop qs none qtype (pre ++ rest)
        = extractLoop qs none qtype' rest := by
  intro pre
  induction pre with
  | nil => intro qs qtype _; exact ⟨qtype, rfl⟩
  | cons p pre ih =>
    intro qs qtype hpre
    have hp : inertLine p = true := hpre p (by simp)
    have hpre' : ∀ x ∈ pre, inertLine x = true :=
      fun x hx => hpre x (by simp [hx])
    simp only [List.cons_append, extractLoop]
    by_cases h1 : (pyStrip p).isEmpty
    · simp only [h1, if_true]
      exact ih qs qtype hpre'
    · simp only [h1, if_false]
      by_cases h2 : (startsHashHash (pyStrip p) && endsHashHash (pyStrip p)) = true
      · simp only [h2, if_true]
        exact ih qs _ hpre'
      · simp only [h2, if_false]
        have h3 : ((matchQuestionStart (pyStrip p)).isNone
            && (matchOption (pyStrip p)).isNone) = true := by
          simp only [inertLine, Bool.or_eq_true] at hp
          rcases hp with (hp | hp) | hp
          · exact absurd hp h1
          · exact absurd hp h2
          · exact hp
        rw [Bool.and_eq_true] at h3
        rw [Option.isNone_iff_eq_none.mp h3.1, Option.isNone_iff_eq_none.mp h3.2]
        exact ih qs qtype hpre'

/-- With no open question, an option line makes the loop raise
(`KeyError` on `current_question['options']`). -/
theorem extractLoop_optionLine_none (qs : List Question) (qtype l : List Char)
    (rest : List (List Char)) (hl : optionLine l = true) :
    extractLoop qs none qtype (l :: rest) = none := by
  simp only [optionLine, Bool.and_eq_true, Bool.not_eq_true'] at hl
  obtain ⟨⟨⟨h1, h2⟩, h3⟩, h4⟩ := hl
  obtain ⟨rem, hrem⟩ := Option.isSome_iff_exists.mp h4
  simp only [extractLoop, h1, h2, Option.isNone_iff_eq_none.mp h3, hrem,
    Bool.false_eq_true, if_false]

/-! ### The claims -/

/-- Claim C7 (confirmed): on Scenario A's four lines — a `single-choice`
section marker, the question-start line `1. What is 2+2?{B}`, and the two
option lines — the segmenter emits exactly one record with type
`single-choice`, stem `What is 2+2?`, options `["3", "4"]` and answer
`B`. -/
theorem claim_C7_scenario_A :
    extract_questions_from_docx
      [chars "##single-choice##", chars "1. What is 2+2?{B}",
        chars "A. 3", chars "B. 4"]
    = some [⟨chars "single-choice", chars "What is 2+2?",
        [chars "3", chars "4"], chars "B"⟩] := by
  decide

/-- Claim C4 (confirmed): the type inferencer is total and always returns
one of the three labels 单选题 (single-choice), 多选题 (multi-choice),
判断题 (true-false), by the priority rules boolean-token / all-letters
length ≥ 2 / single letter / fallback; and on Scenario C's input, with no
explicit type, the answer `AC` infers 多选题 (multi-choice). -/
theorem claim_C4_closed_fallback :
    (∀ q : Question,
      determine_question_type q = chars "单选题" ∨
      determine_question_type q = chars "多选题" ∨
      determine_question_type q = chars "判断题") ∧
    (extract_questions_from_docx
        [chars "2. Pick two{AC}", chars "A. x", chars "B. y", chars "C. z"]).map
        (List.map processQuestion)
      = some [⟨chars "多选题", chars "Pick two",
          [chars "x", chars "y", chars "z"], chars "AC"⟩] := by
  constructor
  · intro q
    simp only [determine_question_type]
    split_ifs <;> simp
  · decide

/-- Claim C9 (confirmed, frame property): the type-inference step of
`write_to_excel` never rewrites a non-empty `type`, and it never touches
`question` (the stem), `options` or `answer` of any record. -/
theorem claim_C9_frame :
    ∀ q : Question,
      (q.type ≠ [] → processQuestion q = q) ∧
      (processQuestion q).question = q.question ∧
      (processQuestion q).options = q.options ∧
      (processQuestion q).answer = q.answer := by
  intro q
  simp only [processQuestion]
  split_ifs with h
  · exact ⟨fun hne => absurd h hne, rfl, rfl, rfl⟩
  · exact ⟨fun _ => rfl, rfl, rfl, rfl⟩

/-- Witness for C9 at a concrete pre-typed record. -/
theorem claim_C9_witness :
    (Question.mk (chars "判断题") (chars "s") [] (chars "对")).type ≠ [] ∧
    processQuestion (Question.mk (chars "判断题") (chars "s") [] (chars "对"))
      = Question.mk (chars "判断题") (chars "s") [] (chars "对") :=
  ⟨by decide, (claim_C9_frame _).1 (by decide)⟩

/-- Counterexample to claim C2: on the single option line `A. x` with no
open question, the segmenter raises a `KeyError`
(`current_question['options']` on the empty dict), modelled by `none` —
the line is not silently dropped, and the output is not what the input
without the line produces. -/
theorem claim_C2_counterexample :
    extract_questions_from_docx [chars "A. x"] = none ∧
    extract_questions_from_docx [] = some [] := by
  decide

/-- Claim C2 as amended: an option line (matching `^[A-D]\.?\s`) appearing
before any question-start line is not dropped; it makes the segmenter
raise an error (a `KeyError` from appending to the options of the empty
record), aborting extraction — regardless of what follows.  Lines whose
leading letter is outside A–D (such as Scenario D's `E. stray`) are still
silently ignored. -/
theorem claim_C2_amended (pre : List (List Char)) (l : List Char)
    (rest : List (List Char))
    (hpre : ∀ p ∈ pre, inertLine p = true) (hl : optionLine l = true) :
    extract_questions_from_docx (pre ++ l :: rest) = none := by
  unfold extract_questions_from_docx
  obtain ⟨qtype', hq⟩ := extractLoop_inert_append (l :: rest) pre [] [] hpre
  rw [hq]
  exact extractLoop_optionLine_none [] qtype' l rest hl

/-- Witness for the amended C2: the empty prefix and the concrete option
line `A. x`. -/
theorem claim_C2_witness :
    optionLine (chars "A. x") = true ∧
    extract_questions_from_docx [chars "A. x", chars "B. y"] = none :=
  ⟨by decide,
    claim_C2_amended [] (chars "A. x") [chars "B. y"]
      (by intro p hp; simp at hp) (by decide)⟩

/-- Counterexample to claim C3: on the question-start line `1. x{a}y{b}`
the answer is taken from the first brace span (`a`), but the removal
deletes *every* brace span — the stem is `xy`, not the `xy{b}` the claim's
remove-only-the-first-span reading predicts. -/
theorem claim_C3_counterexample :
    extract_questions_from_docx [chars "1. x{a}y{b}"]
      = some [Question.mk [] (chars "xy") [] (chars "a")] ∧
    extract_questions_from_docx [chars "1. x{a}y{b}"]
      ≠ some [Question.mk [] (chars "xy{b}") [] (chars "a")] := by
  decide

/-- Claim C3 as amended: on a question-start line, the answer is the inner
text of the first (leftmost-shortest) brace pair of the remainder, but the
subsequent removal deletes every non-overlapping brace span of the
remainder (`re.sub` replaces all matches), and the remaining text,
trimmed, becomes the stem. -/
theorem claim_C3_amended (l rem inner : List Char)
    (hq : matchQuestionStart (pyStrip l) = some rem)
    (hb : findBrace (pyStrip rem) = some inner) :
    extract_questions_from_docx [l]
      = some [Question.mk [] (pyStrip (removeBraces (pyStrip rem))) [] inner] := by
  have h1 : (pyStrip l).isEmpty = false := by
    cases hsl : pyStrip l with
    | nil => rw [hsl] at hq; simp [matchQuestionStart] at hq
    | cons a t => rfl
  have h2 : (startsHashHash (pyStrip l) && endsHashHash (pyStrip l)) = false := by
    cases hs : startsHashHash (pyStrip l) with
    | false => rfl
    | true =>
      rw [matchQuestionStart_of_startsHashHash hs] at hq
      exact absurd hq (by simp)
  unfold extract_questions_from_docx
  simp only [extractLoop, h1, h2, hq, Bool.false_eq_true, if_false,
    openQuestion, hb, List.nil_append]

/-- Witness for the amended C3 at the concrete line `1. q{A}`. -/
theorem claim_C3_witness :
    matchQuestionStart (pyStrip (chars "1. q{A}")) = some (chars "q{A}") ∧
    findBrace (pyStrip (chars "q{A}")) = some (chars "A") ∧
    extract_questions_from_docx [chars "1. q{A}"]
      = some [Question.mk []
          (pyStrip (removeBraces (pyStrip (chars "q{A}")))) [] (chars "A")] :=
  ⟨by decide, by decide,
    claim_C3_amended (chars "1. q{A}") (chars "q{A}") (chars "A")
      (by decide) (by decide)⟩

/-- Claim C5 (confirmed): the header row is chosen once from the type of
the first record, inferred first when empty: for a choice type the columns
are 题型 (type), 题目 (stem), one column per derived option letter — in
ascending alphabetical order — and 答案 (answer); for 判断题 (true-false)
they are 题型, 题目, 正确 (true label), 错误 (false label), 答案; and
otherwise 题型, 题目, 答案. -/
theorem claim_C5_headers (q : Question) (rest : List Question) :
    schemaOf (q :: rest)
      = some (
        if (processQuestion q).type = chars "单选题"
            ∨ (processQuestion q).type = chars "多选题" then
          [chars "题型", chars "题目"]
            ++ (get_option_letters (q :: rest)).map (fun c => [c])
            ++ [chars "答案"]
        else if (processQuestion q).type = chars "判断题" then
          [chars "题型", chars "题目", chars "正确", chars "错误", chars "答案"]
        else
          [chars "题型", chars "题目", chars "答案"]) ∧
    List.Sorted (fun a b => a ≤ b) (get_option_letters (q :: rest)) :=
  ⟨rfl, List.sorted_insertionSort _ _⟩

/-- The derived option letters are invariant under permutation of the
record sequence. -/
theorem get_option_letters_perm {qs1 qs2 : List Question}
    (h : qs1.Perm qs2) : get_option_letters qs1 = get_option_letters qs2 := by
  unfold get_option_letters
  have h1 : (allLetters qs1).Perm (allLetters qs2) := h.flatMap_right _
  exact List.eq_of_perm_of_sorted
    ((List.perm_insertionSort _ _).trans
      (h1.dedup.trans (List.perm_insertionSort _ _).symm))
    (List.sorted_insertionSort _ _) (List.sorted_insertionSort _ _)

/-- Claim C6 (confirmed): the column schema depends only on the first
record's type and on the set of option-letter positions across all
records — permuting the records after the first never changes it. -/
theorem claim_C6_schema_perm (q : Question) (l1 l2 : List Question)
    (h : l1.Perm l2) : schemaOf (q :: l1) = schemaOf (q :: l2) := by
  unfold schemaOf
  simp only [List.map_cons]
  rw [get_option_letters_perm (h.cons q)]

/-- Type inference only ever fills in the type: the other fields pass
through unchanged. -/
theorem processQuestion_options (q : Question) :
    (processQuestion q).options = q.options := by
  simp only [processQuestion]
  split_ifs <;> rfl

/-- `mapM` over `Option` succeeds when every element does. -/
theorem mapM_isSome {α β : Type} (f : α → Option β) :
    ∀ l : List α, (∀ x ∈ l, (f x).isSome = true) → (l.mapM f).isSome = true := by
  intro l
  induction l with
  | nil => intro _; rfl
  | cons x l ih =>
    intro h
    rw [List.mapM_cons]
    obtain ⟨y, hy⟩ := Option.isSome_iff_exists.mp (h x (by simp))
    obtain ⟨ys, hys⟩ :=
      Option.isSome_iff_exists.mp (ih fun z hz => h z (by simp [hz]))
    rw [hy, hys]
    rfl

/-- `mapM` over `Option` fails as soon as one element does. -/
theorem mapM_eq_none {α β : Type} (f : α → Option β) :
    ∀ (l : List α) (x : α), x ∈ l → f x = none → l.mapM f = none := by
  intro l
  induction l with
  | nil => intro x hx; simp at hx
  | cons y l ih =>
    intro x hx hfx
    rw [List.mapM_cons]
    rcases List.mem_cons.mp hx with rfl | hx'
    · rw [hfx]; rfl
    · cases hfy : f y with
      | none => rfl
      | some v => rw [ih x hx' hfx]; rfl

/-- A member satisfying the predicate makes `findIdx?` succeed. -/
theorem findIdx?_isSome_of_mem {α : Type} {p : α → Bool} {l : List α} {x : α}
    (hx : x ∈ l) (hpx : p x = true) : (l.findIdx? p).isSome = true := by
  cases hf : l.findIdx? p with
  | some i => rfl
  | none =>
    rw [List.findIdx?_eq_none_iff] at hf
    simp [hf x hx] at hpx

/-- The option-cell loop succeeds when every needed letter column is
present. -/
theorem writeChoiceCells_isSome (headers : List (List Char)) :
    ∀ (opts : List (List Char)) (i : Nat),
      (∀ j, j < opts.length → [Char.ofNat (65 + (i + j))] ∈ headers) →
      (writeChoiceCells headers i opts).isSome = true := by
  intro opts
  induction opts with
  | nil => intro i _; rfl
  | cons o opts ih =>
    intro i h
    have h0 : [Char.ofNat (65 + i)] ∈ headers := by
      have h0' := h 0 (by simp)
      simpa using h0'
    obtain ⟨idx, hidx⟩ := Option.isSome_iff_exists.mp
      (findIdx?_isSome_of_mem (p := fun hh => hh = [Char.ofNat (65 + i)])
        h0 (by simp))
    have hrest : (writeChoiceCells headers (i + 1) opts).isSome = true := by
      apply ih
      intro j hj
      have hmem := h (j + 1) (by simp only [List.length_cons]; omega)
      have heq : 65 + (i + (j + 1)) = 65 + (i + 1 + j) := by omega
      rw [heq] at hmem
      exact hmem
    obtain ⟨cells, hcells⟩ := Option.isSome_iff_exists.mp hrest
    simp [writeChoiceCells, hidx, hcells]

/-- Every option position of every record contributes its letter to the
derived letter set. -/
theorem mem_get_option_letters {qs : List Question} {q : Question}
    (hq : q ∈ qs) {i : Nat} (hi : i < q.options.length) :
    Char.ofNat (65 + i) ∈ get_option_letters qs := by
  unfold get_option_letters
  rw [(List.perm_insertionSort _ _).mem_iff, List.mem_dedup]
  unfold allLetters
  rw [List.mem_flatMap]
  exact ⟨q, hq, List.mem_map.mpr ⟨i, List.mem_range.mpr hi, rfl⟩⟩

/-- Witness for C6: a concrete transposition of the two records after the
first. -/
theorem claim_C6_witness :
    (([Question.mk [] (chars "s1") [chars "x"] (chars "A"),
        Question.mk [] (chars "s2") [chars "p", chars "q"] (chars "B")] :
          List Question).Perm
      [Question.mk [] (chars "s2") [chars "p", chars "q"] (chars "B"),
        Question.mk [] (chars "s1") [chars "x"] (chars "A")]) ∧
    schemaOf (Question.mk (chars "单选题") (chars "s0") [] (chars "A") ::
        [Question.mk [] (chars "s1") [chars "x"] (chars "A"),
          Question.mk [] (chars "s2") [chars "p", chars "q"] (chars "B")])
      = schemaOf (Question.mk (chars "单选题") (chars "s0") [] (chars "A") ::
          [Question.mk [] (chars "s2") [chars "p", chars "q"] (chars "B"),
            Question.mk [] (chars "s1") [chars "x"] (chars "A")]) :=
  ⟨List.Perm.swap _ _ _,
    claim_C6_schema_perm _ _ _ (List.Perm.swap _ _ _)⟩

/-- Counterexample to claim C1: a batch whose first record is 判断题
(true-false) followed by a 单选题 (single-choice) record with options does
not produce a row for the second record — `headers.index('A')` raises
`ValueError` because the true-false layout has no letter columns, so the
whole write aborts (`none`). -/
theorem claim_C1_counterexample :
    write_to_excel
      [Question.mk (chars "判断题") (chars "天是蓝的") [] (chars "对"),
        Question.mk (chars "单选题") (chars "选一个")
          [chars "甲", chars "乙"] (chars "A")]
      = none := by
  decide

/-- Claim C1 as amended: the first record's schema is applied to every
row, and writing a row whose own type differs succeeds — provided the
first record's (possibly inferred) type is a choice type, so that the
headers contain every derived option letter.  When it is not a choice
type, the schema has no option-letter columns, and any choice-type row
with at least one option makes the writer raise `ValueError` instead of
producing a blank-adapted row. -/
theorem claim_C1_amended (q0 : Question) (rest : List Question) :
    (((processQuestion q0).type = chars "单选题" ∨
        (processQuestion q0).type = chars "多选题") →
      (write_to_excel (q0 :: rest)).isSome = true) ∧
    (((processQuestion q0).type ≠ chars "单选题" ∧
        (processQuestion q0).type ≠ chars "多选题") →
      ∀ q ∈ q0 :: rest,
        ((processQuestion q).type = chars "单选题" ∨
          (processQuestion q).type = chars "多选题") →
        q.options ≠ [] →
        write_to_excel (q0 :: rest) = none) := by
  constructor
  · intro hchoice
    have hheaders :
        get_headers (processQuestion q0).type (get_option_letters (q0 :: rest))
          = [chars "题型", chars "题目"]
            ++ (get_option_letters (q0 :: rest)).map (fun c => [c])
            ++ [chars "答案"] := by
      simp only [get_headers]
      rw [if_pos hchoice]
    have hrows : ∀ x ∈ (q0 :: rest).map processQuestion,
        (writeRow
          (get_headers (processQuestion q0).type (get_option_letters (q0 :: rest)))
          x).isSome = true := by
      intro x hx
      obtain ⟨qq, hqq, rfl⟩ := List.mem_map.mp hx
      by_cases hc1 : (processQuestion qq).type = chars "单选题"
        ∨ (processQuestion qq).type = chars "多选题"
      · have hcells : (writeChoiceCells
            (get_headers (processQuestion q0).type (get_option_letters (q0 :: rest)))
            0 (processQuestion qq).options).isSome = true := by
          apply writeChoiceCells_isSome
          intro j hj
          rw [processQuestion_options] at hj
          rw [hheaders, Nat.zero_add]
          refine List.mem_append.mpr (Or.inl (List.mem_append.mpr (Or.inr ?_)))
          exact List.mem_map.mpr ⟨_, mem_get_option_letters hqq hj, rfl⟩
        simp only [writeRow]
        rw [if_pos hc1]
        simpa using hcells
      · simp only [writeRow]
        rw [if_neg hc1]
        split_ifs <;> rfl
    have hmapM := mapM_isSome _ _ hrows
    unfold write_to_excel
    rw [show schemaOf (q0 :: rest)
        = some (get_headers (processQuestion q0).type
            (get_option_letters (q0 :: rest))) from rfl]
    simpa using hmapM
  · rintro ⟨h1, h2⟩ q hq hqchoice hopts
    have hnc : ¬((processQuestion q0).type = chars "单选题" ∨
        (processQuestion q0).type = chars "多选题") := by
      rintro (h | h)
      · exact h1 h
      · exact h2 h
    have hheaders2 :
        get_headers (processQuestion q0).type (get_option_letters (q0 :: rest))
            = [chars "题型", chars "题目", chars "正确", chars "错误", chars "答案"]
          ∨ get_headers (processQuestion q0).type (get_option_letters (q0 :: rest))
            = [chars "题型", chars "题目", chars "答案"] := by
      by_cases hx2 : (processQuestion q0).type = chars "判断题"
      · left
        simp only [get_headers]
        rw [if_neg hnc, if_pos hx2]
        rfl
      · right
        simp only [get_headers]
        rw [if_neg hnc, if_neg hx2]
        rfl
    have hfindA :
        (get_headers (processQuestion q0).type
            (get_option_letters (q0 :: rest))).findIdx?
          (fun hh => hh = [Char.ofNat (65 + 0)]) = none := by
      rcases hheaders2 with hh | hh <;> rw [hh] <;> decide
    obtain ⟨o, os, hoeq⟩ : ∃ o os, q.options = o :: os := by
      cases hoptseq : q.options with
      | nil => exact absurd hoptseq hopts
      | cons o os => exact ⟨o, os, rfl⟩
    have hrow : writeRow
        (get_headers (processQuestion q0).type (get_option_letters (q0 :: rest)))
        (processQuestion q) = none := by
      simp only [writeRow]
      rw [if_pos hqchoice, processQuestion_options, hoeq]
      simp only [writeChoiceCells, hfindA]
      rfl
    unfold write_to_excel
    rw [show schemaOf (q0 :: rest)
        = some (get_headers (processQuestion q0).type
            (get_option_letters (q0 :: rest))) from rfl]
    rw [Option.some_bind,
      mapM_eq_none _ _ (processQuestion q)
        (List.mem_map.mpr ⟨q, hq, rfl⟩) hrow]
    rfl

/-- Witness for the amended C1: a single-choice-first batch containing a
true-false row writes without error. -/
theorem claim_C1_witness :
    ((processQuestion (Question.mk (chars "单选题") (chars "s")
        [chars "x"] (chars "A"))).type = chars "单选题" ∨
      (processQuestion (Question.mk (chars "单选题") (chars "s")
        [chars "x"] (chars "A"))).type = chars "多选题") ∧
    (write_to_excel
      [Question.mk (chars "单选题") (chars "s") [chars "x"] (chars "A"),
        Question.mk (chars "判断题") (chars "t") [] (chars "对")]).isSome
      = true :=
  ⟨Or.inl (by decide),
    (claim_C1_amended
      (Question.mk (chars "单选题") (chars "s") [chars "x"] (chars "A"))
      [Question.mk (chars "判断题") (chars "t") [] (chars "对")]).1
      (Or.inl (by decide))⟩

/-- Counterexample to claim C8: on the empty input the record sequence is
empty, and the caller then produces nothing at all — it neither writes a
grid nor reports the "no questions found" condition (`main` has no `else`
branch on `if questions:`). -/
theorem claim_C8_counterexample :
    extract_questions_from_docx ([] : List (List Char)) = some [] ∧
    mainAction [] = CallerAction.silent ∧
    mainAction [] ≠ CallerAction.reportNoQuestions := by
  decide

/-- Claim C8 as amended: when the input is exhausted a still-open question
is finalized and appended as the last record; an input with zero
question-start lines *and zero A–D option lines* (in particular the empty
input) yields an empty record sequence; and in that case the caller writes
no grid but stays silent rather than reporting "no questions found". -/
theorem claim_C8_amended :
    (∀ (qs : List Question) (q : Question) (qtype : List Char),
      extractLoop qs (some q) qtype [] = some (qs ++ [q])) ∧
    (∀ paras : List (List Char), (∀ p ∈ paras, inertLine p = true) →
      extract_questions_from_docx paras = some []) ∧
    mainAction [] = CallerAction.silent := by
  refine ⟨extractLoop_nil_some, ?_, rfl⟩
  intro paras hpre
  unfold extract_questions_from_docx
  obtain ⟨qtype', hq⟩ := extractLoop_inert_append [] paras [] [] hpre
  rw [List.append_nil] at hq
  rw [hq]
  rfl

/-- Witness for the amended C8: a stray prose line is inert, the loop
finalizes an open question on exhausted input, and the caller is silent on
an empty record list. -/
theorem claim_C8_witness :
    inertLine (chars "hello world") = true ∧
    extract_questions_from_docx [chars "hello world"] = some [] ∧
    extractLoop [] (some (Question.mk [] (chars "q") [] [])) [] []
      = some [Question.mk [] (chars "q") [] []] :=
  ⟨by decide,
    claim_C8_amended.2.1 [chars "hello world"]
      (by
        intro p hp
        simp only [List.mem_singleton] at hp
        subst hp
        decide),
    claim_C8_amended.1 [] (Question.mk [] (chars "q") [] []) []⟩

/-- The two paragraph loops compute the same function. -/
theorem extractLoopV1_eq :
    ∀ (paras : List (List Char)) (qs : List Question)
      (cur : Option Question) (qtype : List Char),
      extractLoopV1 qs cur qtype paras = extractLoop qs cur qtype paras := by
  intro paras
  induction paras with
  | nil => intro qs cur qtype; rfl
  | cons para rest ih =>
    intro qs cur qtype
    simp only [extractLoopV1, extractLoop, ih]

/-- Claim C10 (confirmed): the segmenters of bot_st1.0.1.py and
bot_st1.0.2.py are extensionally equal — for every paragraph sequence they
produce identical record sequences (and agree on the error case). -/
theorem claim_C10_segmenters_equal :
    ∀ paras : List (List Char),
      extract_questions_from_docx_v1 paras = extract_questions_from_docx paras := by
  intro paras
  unfold extract_questions_from_docx_v1 extract_questions_from_docx
  exact extractLoopV1_eq paras [] none []

end WordToExcel
